import Mathlib

/-!
Verification development for the embient CLI repository.

Part 1 embeds the risk-based position-sizing calculator from
`src/embient/trading_tools/signals/position_sizing.py`.
Part 2 embeds the non-interactive interrupt-resolution loop from
`src/embient/non_interactive.py`.

Real numbers of the source are modelled as rationals (`ℚ`); Python's
`round(x, n)` (round-half-to-even at `n` decimal digits) is modelled by
`pyRound`; a fallible computation returning `(None, None, None)` is
modelled as an `Option` result.
-/

namespace Embient

/-! Decimal rounding, Python style (round half to even). -/

/-- Round a rational to the nearest integer, ties going to the even
integer, as Python's builtin `round` does. -/
def roundHalfEven (q : ℚ) : ℤ :=
  let f := ⌊q⌋
  let r := q - (f : ℚ)
  if r < 1 / 2 then f
  else if 1 / 2 < r then f + 1
  else if f % 2 = 0 then f else f + 1

/-- Python's `round(q, n)`: round to `n` decimal digits, half to even. -/
def pyRound (q : ℚ) (n : ℕ) : ℚ :=
  (roundHalfEven (q * 10 ^ n) : ℚ) / 10 ^ n

/-! Substring containment and upper-casing on symbols. -/

/-- `listContainsSub pat s` holds when `pat` occurs as a contiguous
substring of `s` (the semantics of Python's `pat in s` on strings). -/
def listContainsSub (pat : List Char) : List Char → Bool
  | [] => pat.isEmpty
  | c :: rest => pat.isPrefixOf (c :: rest) || listContainsSub pat rest

/-- `strContainsSub s pat`: `pat` occurs inside `s`. -/
def strContainsSub (s pat : String) : Bool :=
  listContainsSub pat.data s.data

/-- Upper-casing `symbol.upper()` from the source, character by character. -/
def strUpper (s : String) : String :=
  String.mk (s.data.map Char.toUpper)

/-! Embedding of `_round_quantity` (`position_sizing.py`, lines 17-39). -/

/-- The crypto ticker substrings tested by `_round_quantity`. -/
def cryptoTickers : List String :=
  ["BTC", "ETH", "USDT", "USDC", "BNB", "SOL", "ADA", "XRP", "/"]

/-- The crypto test of `_round_quantity`: some conventional crypto ticker
substring (or the pair separator "/") occurs in the upper-cased symbol. -/
def isCryptoSymbol (symbol : String) : Bool :=
  cryptoTickers.any fun c => strContainsSub (strUpper symbol) c

/-- Embedding of `_round_quantity(quantity, symbol)`: crypto symbols round to 8 decimal
places; other symbols round to 2 decimal places below one unit and to a
whole number otherwise. -/
def round_quantity (quantity : ℚ) (symbol : String) : ℚ :=
  if isCryptoSymbol symbol then pyRound quantity 8
  else if quantity < 1 then pyRound quantity 2
  else pyRound quantity 0

/-! Embedding of `calculate_position_sizing` (`position_sizing.py`, lines 42-114). -/

/-- The user-profile dictionary, restricted to the three keys the
calculation reads (each may be absent, as `dict.get` supplies defaults). -/
structure UserProfile where
  available_balance : Option ℚ
  max_leverage : Option ℚ
  default_position_size : Option ℚ
  deriving DecidableEq

/-- A profile dictionary that is falsy in Python (`not user_profile`):
none of the keys the calculation reads is present. -/
def UserProfile.isEmpty (p : UserProfile) : Bool :=
  p.available_balance.isNone && p.max_leverage.isNone &&
    p.default_position_size.isNone

/-- Lines 83-84: `position_size_percent` is replaced by the profile
default when it is `None` or `<= 0`. -/
def positionSizePercentUsed (position_size_percent : Option ℚ) (default_position_size : ℚ) : ℚ :=
  match position_size_percent with
  | none => default_position_size
  | some x => if x ≤ 0 then default_position_size else x

/-- Embedding of `calculate_position_sizing`: returns
`some (capital_allocated, leverage, quantity)` or `none` where the source
returns `(None, None, None)`. -/
def calculate_position_sizing (user_profile : Option UserProfile)
    (entry_price stop_loss : ℚ) (position_size_percent : Option ℚ)
    (symbol : String) : Option (ℚ × ℚ × ℚ) :=
  match user_profile with
  | none => none
  | some p =>
    if p.isEmpty then none
    else if entry_price ≤ 0 ∨ stop_loss ≤ 0 then none
    else
      let available_balance := p.available_balance.getD 0
      if available_balance ≤ 0 then none
      else
        let max_leverage := p.max_leverage.getD 5
        let default_position_size := p.default_position_size.getD 2
        let pct := positionSizePercentUsed position_size_percent default_position_size
        let risk_amount := available_balance * (pct / 100)
        let price_diff := |entry_price - stop_loss|
        if price_diff = 0 then none
        else
          let quantity := risk_amount / price_diff
          let notional_value := quantity * entry_price
          let leverage := max 1 (notional_value / available_balance)
          if leverage > max_leverage then
            let max_notional := available_balance * max_leverage
            let quantity := max_notional / entry_price
            let quantity := round_quantity quantity symbol
            some (quantity * entry_price, max_leverage, quantity)
          else
            let quantity := round_quantity quantity symbol
            some (quantity * entry_price, leverage, quantity)

/-! Part 2: the non-interactive interrupt-resolution loop
(`src/embient/non_interactive.py`)

The external agent is a black box: each pass over it yields a list of
stream chunks.  The loop's own state (`StreamState`), the chunk handlers
(`process_interrupts`, `process_ai_message`, `process_stream_chunk`,
`stream_agent`), the auto-approval step (`process_hitl_interrupts`) and
the driver (`run_agent_loop`) are embedded below; Python dictionaries
become insertion-ordered association lists. -/

/-- Insertion-ordered dictionary update: overwrite the value at an
existing key in place, else append (Python `dict` assignment). -/
def dictInsert {κ α : Type} [DecidableEq κ] : List (κ × α) → κ → α → List (κ × α)
  | [], k, v => [(k, v)]
  | (k', v') :: rest, k, v =>
    if k' = k then (k, v) :: rest else (k', v') :: dictInsert rest k v

/-- One named action inside a HITL request (`action_request` with its
`name` field; other fields are not read by this module). -/
structure ActionRequest where
  name : String
  deriving DecidableEq

/-- A validated `HITLRequest` payload: its list of action requests. -/
structure HITLRequest where
  action_requests : List ActionRequest
  deriving DecidableEq

/-- The payload carried by an interrupt: either it validates against the
`HITLRequest` schema or validation fails (`ValidationError`). -/
inductive InterruptValue where
  | valid (req : HITLRequest)
  | malformed
  deriving DecidableEq

/-- One interrupt object from an `__interrupt__` updates chunk. -/
structure InterruptObj where
  id : String
  value : InterruptValue
  deriving DecidableEq

/-- A single decision inside a decision batch. -/
inductive Decision where
  | approve
  | reject (message : String)
  deriving DecidableEq

/-- A decision batch: interrupt id to the list of decisions for it
(the value of `Command(resume=...)`). -/
abbrev Batch : Type := List (String × List Decision)

/-- Key of a tool-call buffer: the chunk's integer index when present,
else its string id, else a synthesized `unknown-n` string. -/
inductive BufferKey where
  | index (n : Int)
  | str (s : String)
  deriving DecidableEq

/-- A tool-call buffer entry (`{"name": None, "id": None}`); only the
name is ever filled in by the source. -/
structure ToolCallBuffer where
  name : Option String
  id : Option String
  deriving DecidableEq

/-- Embedding of `StreamState` (`non_interactive.py`, lines 54-63). -/
structure StreamState where
  quiet : Bool
  full_response : List String
  tool_call_buffers : List (BufferKey × ToolCallBuffer)
  pending_interrupts : List (String × HITLRequest)
  hitl_response : Batch
  interrupt_occurred : Bool
  deriving DecidableEq

/-- One content block of a streamed AI message: a text block, a tool-call
(or tool-call-chunk) block with its optional `name`/`index`/`id` fields,
or anything else (skipped by the source). -/
inductive ContentBlock where
  | text (s : String)
  | toolCall (name : Option String) (index : Option Int) (idv : Option String)
  | other
  deriving DecidableEq

/-- One raw stream chunk, after the tuple-shape checks of
`_process_stream_chunk`: an updates chunk carrying interrupts, an AI
message chunk (with its namespace-nonempty and summarization-source
flags), or any other chunk (skipped). -/
inductive StreamChunk where
  | interrupts (subagent : Bool) (xs : List InterruptObj)
  | message (subagent : Bool) (fromSummarization : Bool) (blocks : List ContentBlock)
  | other
  deriving DecidableEq

/-- Embedding of `_process_interrupts` (lines 66-85): a payload that fails validation
is answered in `hitl_response` by a single reject decision; a valid one
is recorded as pending and sets the interrupt flag. -/
def process_interrupts (xs : List InterruptObj) (state : StreamState) : StreamState :=
  xs.foldl
    (fun st i =>
      match i.value with
      | .malformed =>
        { st with hitl_response :=
            dictInsert st.hitl_response i.id [Decision.reject "Malformed interrupt"] }
      | .valid req =>
        { st with
            pending_interrupts := dictInsert st.pending_interrupts i.id req,
            interrupt_occurred := true })
    state

/-- Python truthiness of an optional string (`if chunk_name:`). -/
def optStrTruthy : Option String → Bool
  | none => false
  | some s => !(s == "")

/-- Embedding of `_process_ai_message` (lines 88-123): text blocks append to the
accumulated response; tool-call blocks create (and name) a buffer entry
keyed by index, id, or a synthesized key. -/
def process_ai_message (blocks : List ContentBlock) (state : StreamState) : StreamState :=
  blocks.foldl
    (fun st b =>
      match b with
      | .text s => if s = "" then st else { st with full_response := st.full_response ++ [s] }
      | .toolCall nm idx idv =>
        let buffer_key : BufferKey :=
          match idx with
          | some n => .index n
          | none =>
            match idv with
            | some s => .str s
            | none => .str ("unknown-" ++ toString st.tool_call_buffers.length)
        let st :=
          if (st.tool_call_buffers.lookup buffer_key).isNone then
            { st with tool_call_buffers :=
                dictInsert st.tool_call_buffers buffer_key ⟨none, none⟩ }
          else st
        if optStrTruthy nm then
          { st with tool_call_buffers :=
              dictInsert st.tool_call_buffers buffer_key ⟨nm, none⟩ }
        else st
      | .other => st)
    state

/-- Embedding of `_process_stream_chunk` (lines 126-147): chunks from a subagent
namespace or from summarization are skipped. -/
def process_stream_chunk (c : StreamChunk) (state : StreamState) : StreamState :=
  match c with
  | .interrupts subagent xs =>
    if subagent then state else process_interrupts xs state
  | .message subagent fromSummarization blocks =>
    if subagent then state
    else if fromSummarization then state
    else process_ai_message blocks state
  | .other => state

/-- Embedding of `_stream_agent` (lines 167-180): consume a full pass of the stream. -/
def stream_agent (chunks : List StreamChunk) (state : StreamState) : StreamState :=
  chunks.foldl (fun st c => process_stream_chunk c st) state

/-- Embedding of `_process_hitl_interrupts` (lines 150-164): move every pending
request into the decision batch with one approve decision per action
request, clearing the pending table. -/
def process_hitl_interrupts (state : StreamState) : StreamState :=
  let current := state.pending_interrupts
  current.foldl
    (fun st p =>
      { st with hitl_response :=
          dictInsert st.hitl_response p.1 (p.2.action_requests.map fun _ => Decision.approve) })
    { state with pending_interrupts := [] }

/-- The state transformation the loop body applies between two resume
cycles, before re-invoking the executor (lines 203-205): clear the
interrupt flag and the decision batch, then build the approvals. -/
def resume_prepare (state : StreamState) : StreamState :=
  process_hitl_interrupts { state with interrupt_occurred := false, hitl_response := [] }

/-- The decision batch `process_hitl_interrupts` builds from a pending
table when the accumulator starts empty. -/
def buildApprovals (pending : List (String × HITLRequest)) : Batch :=
  pending.foldl
    (fun acc p => dictInsert acc p.1 (p.2.action_requests.map fun _ => Decision.approve))
    []

/-- Constant `_MAX_HITL_ITERATIONS` (line 40). -/
def MAX_HITL_ITERATIONS : ℕ := 50

/-- Exit condition of the loop: the stream drained with no pending
interrupt (`completed`), or the iteration ceiling was exceeded and
`RuntimeError` was raised (`aborted`). -/
inductive LoopStatus where
  | completed
  | aborted
  deriving DecidableEq

/-- Result of a run: its exit condition, the final stream state, and the
decision batches actually supplied to the executor, in order. -/
structure LoopResult where
  status : LoopStatus
  state : StreamState
  batches : List Batch
  deriving DecidableEq

/-- Embedding of the `while state.interrupt_occurred` loop of `_run_agent_loop`
(lines 197-209).  `resumes k b` is the stream the executor produces for
the `(k+1)`-th resume when given decision batch `b`; `fuel` is the
number of iterations the ceiling still allows. -/
def run_agent_loop_aux (resumes : ℕ → Batch → List StreamChunk) :
    ℕ → StreamState → List Batch → LoopResult
  | fuel, st, batches =>
    if st.interrupt_occurred then
      match fuel with
      | 0 => ⟨.aborted, st, batches.reverse⟩
      | fuel + 1 =>
        let st := resume_prepare st
        let batch := st.hitl_response
        let st := stream_agent (resumes batches.length batch) st
        run_agent_loop_aux resumes fuel st (batch :: batches)
    else ⟨.completed, st, batches.reverse⟩

/-- Embedding of `_run_agent_loop` (lines 183-209): stream the initial pass from a
fresh `StreamState`, then resolve interrupts until none remain or the
ceiling is hit. -/
def run_agent_loop (initial : List StreamChunk)
    (resumes : ℕ → Batch → List StreamChunk) (quiet : Bool) : LoopResult :=
  let st := stream_agent initial ⟨quiet, [], [], [], [], false⟩
  run_agent_loop_aux resumes MAX_HITL_ITERATIONS st []

/-- An interrupt whose payload validated. -/
def isValidInterrupt (i : InterruptObj) : Bool :=
  match i.value with
  | .valid _ => true
  | .malformed => false

/-- A chunk that causes `process_stream_chunk` to set the interrupt
flag: a non-subagent interrupts chunk with a valid payload. -/
def chunkSetsFlag : StreamChunk → Bool
  | .interrupts false xs => xs.any isValidInterrupt
  | _ => false

/-! Helper lemmas for the position-sizing calculator. -/

lemma roundHalfEven_intCast (z : ℤ) : roundHalfEven (z : ℚ) = z := by
  unfold roundHalfEven
  rw [Int.floor_intCast]
  norm_num

lemma pyRound_intCast (z : ℤ) (n : ℕ) : pyRound (z : ℚ) n = z := by
  unfold pyRound
  have h : ((z : ℚ) * 10 ^ n) = ((z * 10 ^ n : ℤ) : ℚ) := by push_cast; ring
  rw [h, roundHalfEven_intCast]
  push_cast
  rw [mul_div_assoc, div_self (by positivity), mul_one]

lemma avail_some_of_pos (p : UserProfile) (hb : 0 < p.available_balance.getD 0) :
    ∃ b, p.available_balance = some b ∧ 0 < b := by
  cases h : p.available_balance with
  | none => rw [h] at hb; norm_num at hb
  | some b => exact ⟨b, rfl, by rwa [h] at hb⟩

lemma isEmpty_false_of_pos (p : UserProfile) (hb : 0 < p.available_balance.getD 0) :
    p.isEmpty = false := by
  obtain ⟨b, h1, _⟩ := avail_some_of_pos p hb
  simp [UserProfile.isEmpty, h1]

/-- Closed form of the calculation on inputs that pass all four
validation checks: the two branches of the leverage cap. -/
theorem calc_some_eq (p : UserProfile) (e s : ℚ) (pct : Option ℚ) (sym : String)
    (he : 0 < e) (hs : 0 < s) (hb : 0 < p.available_balance.getD 0) (hne : e ≠ s) :
    calculate_position_sizing (some p) e s pct sym =
      if p.max_leverage.getD 5 <
          max 1 (p.available_balance.getD 0 *
            (positionSizePercentUsed pct (p.default_position_size.getD 2) / 100) / |e - s| * e /
              p.available_balance.getD 0) then
        some (round_quantity (p.available_balance.getD 0 * p.max_leverage.getD 5 / e) sym * e,
              p.max_leverage.getD 5,
              round_quantity (p.available_balance.getD 0 * p.max_leverage.getD 5 / e) sym)
      else
        some (round_quantity (p.available_balance.getD 0 *
                (positionSizePercentUsed pct (p.default_position_size.getD 2) / 100) / |e - s|) sym * e,
              max 1 (p.available_balance.getD 0 *
                (positionSizePercentUsed pct (p.default_position_size.getD 2) / 100) / |e - s| * e /
                  p.available_balance.getD 0),
              round_quantity (p.available_balance.getD 0 *
                (positionSizePercentUsed pct (p.default_position_size.getD 2) / 100) / |e - s|) sym) := by
  have hemp := isEmpty_false_of_pos p hb
  have hprice : ¬ (e ≤ 0 ∨ s ≤ 0) := by push_neg; exact ⟨he, hs⟩
  have hbal : ¬ (p.available_balance.getD 0 ≤ 0) := not_le.mpr hb
  have hdiff : ¬ (|e - s| = 0) := by rw [abs_eq_zero, sub_eq_zero]; exact hne
  simp only [calculate_position_sizing, hemp, Bool.false_eq_true, if_false, hprice, hbal, hdiff,
    ite_false, gt_iff_lt]

/-- C4: for every valid position-sizing input (positive prices and
balance, distinct entry and stop, `max_leverage ≥ 1`), the calculation
returns a result whose leverage lies in `[1, max_leverage]`. -/
theorem leverage_within_cap (p : UserProfile) (e s : ℚ) (pct : Option ℚ) (sym : String)
    (he : 0 < e) (hs : 0 < s) (hb : 0 < p.available_balance.getD 0) (hne : e ≠ s)
    (hL : 1 ≤ p.max_leverage.getD 5) :
    ∃ cap lev qty, calculate_position_sizing (some p) e s pct sym = some (cap, lev, qty)
      ∧ 1 ≤ lev ∧ lev ≤ p.max_leverage.getD 5 := by
  rw [calc_some_eq p e s pct sym he hs hb hne]
  split_ifs with hcap
  · exact ⟨_, _, _, rfl, hL, le_refl _⟩
  · exact ⟨_, _, _, rfl, le_max_left _ _, not_lt.mp hcap⟩

/-- Witness for C4 at entry 100, stop 99, balance 1000, risk 10 percent,
max leverage 3, symbol AAPL. -/
theorem leverage_within_cap_witness :
    ((0 : ℚ) < 100 ∧ (0 : ℚ) < 99
      ∧ (0 : ℚ) < (UserProfile.mk (some 1000) (some 3) none).available_balance.getD 0
      ∧ (100 : ℚ) ≠ 99
      ∧ (1 : ℚ) ≤ (UserProfile.mk (some 1000) (some 3) none).max_leverage.getD 5)
    ∧ ∃ cap lev qty,
        calculate_position_sizing (some (UserProfile.mk (some 1000) (some 3) none)) 100 99
          (some 10) "AAPL" = some (cap, lev, qty)
        ∧ 1 ≤ lev ∧ lev ≤ (UserProfile.mk (some 1000) (some 3) none).max_leverage.getD 5 :=
  ⟨⟨by norm_num, by norm_num, by simp [Option.getD], by norm_num, by simp [Option.getD]⟩,
   leverage_within_cap (UserProfile.mk (some 1000) (some 3) none) 100 99 (some 10) "AAPL"
     (by norm_num) (by norm_num) (by simp [Option.getD]) (by norm_num)
     (by simp [Option.getD])⟩

/-- C5: with a profile supplied, the calculation returns no result
exactly when `entry_price ≤ 0`, `stop_loss ≤ 0`, the available balance
is `≤ 0`, or the entry price equals the stop price; on every other
input it produces a result. -/
theorem calculation_fails_iff_invalid_input (p : UserProfile) (e s : ℚ) (pct : Option ℚ)
    (sym : String) :
    calculate_position_sizing (some p) e s pct sym = none ↔
      (e ≤ 0 ∨ s ≤ 0 ∨ p.available_balance.getD 0 ≤ 0 ∨ e = s) := by
  constructor
  · intro h
    by_contra hc
    push_neg at hc
    obtain ⟨he, hs, hb, hne⟩ := hc
    rw [calc_some_eq p e s pct sym (not_le.mp (by simpa using he)) (not_le.mp (by simpa using hs))
      (not_le.mp (by simpa using hb)) hne] at h
    split_ifs at h
  · intro h
    by_cases hemp : p.isEmpty
    · simp [calculate_position_sizing, hemp]
    · simp only [calculate_position_sizing, hemp, Bool.false_eq_true, if_false]
      rcases h with h | h | h | h
      · simp [h]
      · simp [h]
      · by_cases hps : e ≤ 0 ∨ s ≤ 0
        · simp [hps]
        · simp [hps, h]
      · by_cases hps : e ≤ 0 ∨ s ≤ 0
        · simp [hps]
        · by_cases hb : p.available_balance.getD 0 ≤ 0
          · simp [hps, hb]
          · simp [hps, hb, h]

/-- C6: when the risk-derived leverage `max 1 (notional / balance)`
exceeds `max_leverage`, the calculation returns leverage exactly
`max_leverage`, quantity the rounded `balance * max_leverage /
entry_price`, and capital that rounded quantity times the entry price. -/
theorem leverage_cap_recompute (p : UserProfile) (e s : ℚ) (pct : Option ℚ) (sym : String)
    (he : 0 < e) (hs : 0 < s) (hb : 0 < p.available_balance.getD 0) (hne : e ≠ s)
    (hcap : p.max_leverage.getD 5 <
      max 1 (p.available_balance.getD 0 *
        (positionSizePercentUsed pct (p.default_position_size.getD 2) / 100) / |e - s| * e /
          p.available_balance.getD 0)) :
    calculate_position_sizing (some p) e s pct sym =
      some (round_quantity (p.available_balance.getD 0 * p.max_leverage.getD 5 / e) sym * e,
            p.max_leverage.getD 5,
            round_quantity (p.available_balance.getD 0 * p.max_leverage.getD 5 / e) sym) := by
  rw [calc_some_eq p e s pct sym he hs hb hne, if_pos hcap]

lemma round_quantity_thirty : round_quantity (30 : ℚ) "AAPL" = 30 := by
  unfold round_quantity
  rw [if_neg (by decide), if_neg (by norm_num)]
  exact_mod_cast pyRound_intCast 30 0

/-- Witness for C6: Scenario B (entry 100, stop 99, balance 1000, risk
10 percent, max leverage 3, symbol AAPL) trips the cap and yields
capital 3000, leverage 3, quantity 30. -/
theorem leverage_cap_recompute_witness :
    ((UserProfile.mk (some 1000) (some 3) none).max_leverage.getD 5 <
      max 1 ((UserProfile.mk (some 1000) (some 3) none).available_balance.getD 0 *
        (positionSizePercentUsed (some 10) ((UserProfile.mk (some 1000) (some 3) none).default_position_size.getD 2) / 100) / |(100 : ℚ) - 99| * 100 /
          (UserProfile.mk (some 1000) (some 3) none).available_balance.getD 0))
    ∧ calculate_position_sizing (some (UserProfile.mk (some 1000) (some 3) none)) 100 99 (some 10)
        "AAPL" = some (3000, 3, 30) := by
  have hcap : ((UserProfile.mk (some 1000) (some 3) none).max_leverage.getD 5 <
      max 1 ((UserProfile.mk (some 1000) (some 3) none).available_balance.getD 0 *
        (positionSizePercentUsed (some 10) ((UserProfile.mk (some 1000) (some 3) none).default_position_size.getD 2) / 100) / |(100 : ℚ) - 99| * 100 /
          (UserProfile.mk (some 1000) (some 3) none).available_balance.getD 0)) := by
    have h1 : positionSizePercentUsed (some 10) ((UserProfile.mk (some 1000) (some 3) none).default_position_size.getD 2) = 10 := by
      simp [positionSizePercentUsed, Option.getD]
    rw [h1]
    have h2 : |(100 : ℚ) - 99| = 1 := by norm_num
    simp only [Option.getD, h2]
    norm_num
  refine ⟨hcap, ?_⟩
  have h := leverage_cap_recompute (UserProfile.mk (some 1000) (some 3) none) 100 99 (some 10)
    "AAPL" (by norm_num) (by norm_num) (by simp [Option.getD]) (by norm_num) hcap
  rw [h]
  have h3 : (UserProfile.mk (some 1000) (some 3) none).available_balance.getD 0 *
      (UserProfile.mk (some 1000) (some 3) none).max_leverage.getD 5 / 100 = 30 := by
    simp [Option.getD]; norm_num
  rw [h3, round_quantity_thirty]
  norm_num

/-- C7: crypto-classified symbols get a quantity that is an integer
multiple of `10 ^ (-8)`; other symbols get a multiple of `10 ^ (-2)`
when the raw quantity is below one, and a whole number otherwise. -/
theorem rounding_rule_by_asset_class (q : ℚ) (sym : String) :
    (isCryptoSymbol sym = true → ∃ z : ℤ, round_quantity q sym = (z : ℚ) / 10 ^ 8)
    ∧ (isCryptoSymbol sym = false →
        (q < 1 → ∃ z : ℤ, round_quantity q sym = (z : ℚ) / 10 ^ 2)
        ∧ (¬ q < 1 → ∃ z : ℤ, round_quantity q sym = (z : ℚ))) := by
  unfold round_quantity pyRound
  constructor
  · intro h
    rw [if_pos h]
    exact ⟨_, rfl⟩
  · intro h
    rw [if_neg (by simp [h])]
    constructor
    · intro hq
      rw [if_pos hq]
      exact ⟨_, rfl⟩
    · intro hq
      rw [if_neg hq]
      exact ⟨roundHalfEven (q * 10 ^ 0), by norm_num⟩

/-- Witness for C7 at the P3 instances: BTC/USDT with one third, AAPL
with two fifths, AAPL with twelve point seven. -/
theorem rounding_rule_witness :
    (isCryptoSymbol "BTC/USDT" = true
      ∧ ∃ z : ℤ, round_quantity (1 / 3) "BTC/USDT" = (z : ℚ) / 10 ^ 8)
    ∧ (isCryptoSymbol "AAPL" = false ∧ ((2 : ℚ) / 5 < 1)
      ∧ ∃ z : ℤ, round_quantity (2 / 5) "AAPL" = (z : ℚ) / 10 ^ 2)
    ∧ (isCryptoSymbol "AAPL" = false ∧ ¬ ((127 : ℚ) / 10 < 1)
      ∧ ∃ z : ℤ, round_quantity (127 / 10) "AAPL" = (z : ℚ)) :=
  ⟨⟨by decide, (rounding_rule_by_asset_class (1 / 3) "BTC/USDT").1 (by decide)⟩,
   ⟨by decide, by norm_num,
    ((rounding_rule_by_asset_class (2 / 5) "AAPL").2 (by decide)).1 (by norm_num)⟩,
   ⟨by decide, by norm_num,
    ((rounding_rule_by_asset_class (127 / 10) "AAPL").2 (by decide)).2 (by norm_num)⟩⟩

/-- C8: the risk percentage used is the caller-supplied value whenever
it is strictly positive, and the account default when it is absent,
zero, or negative. -/
theorem risk_percent_fallback_rule (x d : ℚ) :
    positionSizePercentUsed none d = d
    ∧ (0 < x → positionSizePercentUsed (some x) d = x)
    ∧ (x ≤ 0 → positionSizePercentUsed (some x) d = d) := by
  refine ⟨rfl, ?_, ?_⟩
  · intro hx
    simp [positionSizePercentUsed, not_le.mpr hx]
  · intro hx
    simp [positionSizePercentUsed, hx]

/-- Witness for C8 at a positive, a zero, and an absent risk percent. -/
theorem risk_percent_fallback_witness :
    positionSizePercentUsed none 2 = 2
    ∧ ((0 : ℚ) < 7 ∧ positionSizePercentUsed (some 7) 2 = 7)
    ∧ ((0 : ℚ) ≤ 0 ∧ positionSizePercentUsed (some 0) 2 = 2) :=
  ⟨(risk_percent_fallback_rule 7 2).1,
   ⟨by norm_num, (risk_percent_fallback_rule 7 2).2.1 (by norm_num)⟩,
   ⟨le_refl 0, (risk_percent_fallback_rule 0 2).2.2 (le_refl 0)⟩⟩

/-- C9: a missing profile and a profile with none of the read keys
present (the falsy empty dictionary) both return no result, exactly as
invalid prices do. -/
theorem missing_or_empty_profile_returns_none (e s : ℚ) (pct : Option ℚ) (sym : String) :
    calculate_position_sizing none e s pct sym = none
    ∧ calculate_position_sizing (some ⟨none, none, none⟩) e s pct sym = none := by
  constructor
  · rfl
  · simp [calculate_position_sizing, UserProfile.isEmpty]

/-- C10: a risk percent above 100 is accepted unchanged: it is used
as-is, makes the risk amount exceed the balance, and the calculation
still succeeds with leverage bounded only by the cap. -/
theorem oversized_risk_percent_used_as_is (p : UserProfile) (e s : ℚ) (pct : ℚ) (sym : String)
    (he : 0 < e) (hs : 0 < s) (hb : 0 < p.available_balance.getD 0) (hne : e ≠ s)
    (hpct : 100 < pct) :
    positionSizePercentUsed (some pct) (p.default_position_size.getD 2) = pct
    ∧ p.available_balance.getD 0 < p.available_balance.getD 0 * (pct / 100)
    ∧ ∃ cap lev qty, calculate_position_sizing (some p) e s (some pct) sym = some (cap, lev, qty)
        ∧ lev ≤ p.max_leverage.getD 5 := by
  refine ⟨?_, ?_, ?_⟩
  · simp [positionSizePercentUsed, not_le.mpr (by linarith : (0 : ℚ) < pct)]
  · have h1 : (1 : ℚ) < pct / 100 := (one_lt_div (by norm_num)).mpr hpct
    calc p.available_balance.getD 0 = p.available_balance.getD 0 * 1 := (mul_one _).symm
      _ < p.available_balance.getD 0 * (pct / 100) := by
          exact mul_lt_mul_of_pos_left h1 hb
  · rw [calc_some_eq p e s (some pct) sym he hs hb hne]
    split_ifs with hcap
    · exact ⟨_, _, _, rfl, le_refl _⟩
    · exact ⟨_, _, _, rfl, not_lt.mp hcap⟩

/-- Witness for C10 at risk percent 200 on Scenario B's account. -/
theorem oversized_risk_percent_witness :
    ((0 : ℚ) < 100 ∧ (0 : ℚ) < 99
      ∧ (0 : ℚ) < (UserProfile.mk (some 1000) (some 3) none).available_balance.getD 0
      ∧ (100 : ℚ) ≠ 99 ∧ (100 : ℚ) < 200)
    ∧ (positionSizePercentUsed (some 200) ((UserProfile.mk (some 1000) (some 3) none).default_position_size.getD 2) = 200
      ∧ (UserProfile.mk (some 1000) (some 3) none).available_balance.getD 0 <
          (UserProfile.mk (some 1000) (some 3) none).available_balance.getD 0 * (200 / 100)
      ∧ ∃ cap lev qty,
          calculate_position_sizing (some (UserProfile.mk (some 1000) (some 3) none)) 100 99
            (some 200) "AAPL" = some (cap, lev, qty)
          ∧ lev ≤ (UserProfile.mk (some 1000) (some 3) none).max_leverage.getD 5) :=
  ⟨⟨by norm_num, by norm_num, by simp [Option.getD], by norm_num, by norm_num⟩,
   oversized_risk_percent_used_as_is (UserProfile.mk (some 1000) (some 3) none) 100 99 200 "AAPL"
     (by norm_num) (by norm_num) (by simp [Option.getD]) (by norm_num) (by norm_num)⟩

/-! Helper lemmas for the interrupt-resolution loop. -/

lemma process_interrupts_flag (xs : List InterruptObj) (st : StreamState) :
    (process_interrupts xs st).interrupt_occurred
      = (st.interrupt_occurred || xs.any isValidInterrupt) := by
  induction xs generalizing st with
  | nil => simp [process_interrupts]
  | cons i rest ih =>
    simp only [process_interrupts, List.foldl_cons, List.any_cons] at *
    cases hv : i.value with
    | valid req => simp [process_interrupts, hv, ih, isValidInterrupt]
    | malformed => simp [process_interrupts, hv, ih, isValidInterrupt]

lemma process_ai_message_flag (blocks : List ContentBlock) (st : StreamState) :
    (process_ai_message blocks st).interrupt_occurred = st.interrupt_occurred := by
  induction blocks generalizing st with
  | nil => simp [process_ai_message]
  | cons b rest ih =>
    simp only [process_ai_message, List.foldl_cons] at *
    rw [ih]
    cases b with
    | text s => dsimp only; split_ifs <;> rfl
    | toolCall nm idx idv => dsimp only; split_ifs <;> rfl
    | other => rfl

lemma process_stream_chunk_flag (c : StreamChunk) (st : StreamState) :
    (process_stream_chunk c st).interrupt_occurred
      = (st.interrupt_occurred || chunkSetsFlag c) := by
  cases c with
  | interrupts subagent xs =>
    cases subagent with
    | false => simp [process_stream_chunk, chunkSetsFlag, process_interrupts_flag]
    | true => simp [process_stream_chunk, chunkSetsFlag]
  | message subagent fromSummarization blocks =>
    cases subagent with
    | false =>
      cases fromSummarization with
      | false => simp [process_stream_chunk, chunkSetsFlag, process_ai_message_flag]
      | true => simp [process_stream_chunk, chunkSetsFlag]
    | true => simp [process_stream_chunk, chunkSetsFlag]
  | other => simp [process_stream_chunk, chunkSetsFlag]

lemma stream_agent_flag (chunks : List StreamChunk) (st : StreamState) :
    (stream_agent chunks st).interrupt_occurred
      = (st.interrupt_occurred || chunks.any chunkSetsFlag) := by
  induction chunks generalizing st with
  | nil => simp [stream_agent]
  | cons c rest ih =>
    simp only [stream_agent, List.foldl_cons, List.any_cons] at *
    rw [ih, process_stream_chunk_flag, Bool.or_assoc]

lemma run_agent_loop_aux_aborted (resumes : ℕ → Batch → List StreamChunk)
    (h : ∀ k b, ((resumes k b).any chunkSetsFlag) = true) :
    ∀ fuel (st : StreamState) (batches : List Batch), st.interrupt_occurred = true →
      (run_agent_loop_aux resumes fuel st batches).status = .aborted
      ∧ (run_agent_loop_aux resumes fuel st batches).batches.length
          = batches.length + fuel := by
  intro fuel
  induction fuel with
  | zero =>
    intro st batches hflag
    rw [run_agent_loop_aux, if_pos hflag]
    simp
  | succ f ih =>
    intro st batches hflag
    rw [run_agent_loop_aux, if_pos hflag]
    have hnext : (stream_agent (resumes batches.length (resume_prepare st).hitl_response)
        (resume_prepare st)).interrupt_occurred = true := by
      rw [stream_agent_flag, h]
      simp
    have := ih _ (((resume_prepare st).hitl_response) :: batches) hnext
    simp only [List.length_cons] at this ⊢
    exact ⟨this.1, by omega⟩

/-- C2: against a task executor that raises a valid Approval Request on
the initial pass and on every resume pass, the loop ends in the aborted
condition after exactly 50 resume rounds. -/
theorem iteration_ceiling_aborts_after_fifty_rounds (initial : List StreamChunk)
    (resumes : ℕ → Batch → List StreamChunk) (q : Bool)
    (h0 : initial.any chunkSetsFlag = true)
    (h : ∀ k b, ((resumes k b).any chunkSetsFlag) = true) :
    (run_agent_loop initial resumes q).status = .aborted
    ∧ (run_agent_loop initial resumes q).batches.length = 50 := by
  unfold run_agent_loop
  have hst : (stream_agent initial ⟨q, [], [], [], [], false⟩).interrupt_occurred = true := by
    rw [stream_agent_flag, h0]
    simp
  have hh := run_agent_loop_aux_aborted resumes h MAX_HITL_ITERATIONS _ [] hst
  exact ⟨hh.1, by simpa [MAX_HITL_ITERATIONS] using hh.2⟩

/-- Witness for C2: an executor that re-raises the same valid interrupt
on every pass. -/
theorem iteration_ceiling_witness :
    ([StreamChunk.interrupts false [⟨"i1", .valid ⟨[⟨"run_command"⟩]⟩⟩]].any chunkSetsFlag = true)
    ∧ (run_agent_loop [StreamChunk.interrupts false [⟨"i1", .valid ⟨[⟨"run_command"⟩]⟩⟩]]
        (fun _ _ => [StreamChunk.interrupts false [⟨"i1", .valid ⟨[⟨"run_command"⟩]⟩⟩]])
        false).status = .aborted
    ∧ (run_agent_loop [StreamChunk.interrupts false [⟨"i1", .valid ⟨[⟨"run_command"⟩]⟩⟩]]
        (fun _ _ => [StreamChunk.interrupts false [⟨"i1", .valid ⟨[⟨"run_command"⟩]⟩⟩]])
        false).batches.length = 50 :=
  ⟨by decide,
   (iteration_ceiling_aborts_after_fifty_rounds _ _ false (by decide) (fun k b => by decide)).1,
   (iteration_ceiling_aborts_after_fifty_rounds _ _ false (by decide) (fun k b => by decide)).2⟩

/-- C1: on a pass raising one malformed interrupt (id m1) and one valid
interrupt (id v1), `process_interrupts` does record a reject with a
diagnostic for m1, but the decision batch actually supplied to the
executor on resume is exactly the approval for v1: the loop body clears
the accumulator before building it, so the reject for m1 is silently
dropped and never reaches the executor, contradicting the claim. -/
theorem malformed_interrupt_reject_dropped :
    (process_interrupts
        [⟨"m1", .malformed⟩, ⟨"v1", .valid ⟨[⟨"create_trading_signal"⟩]⟩⟩]
        ⟨false, [], [], [], [], false⟩).hitl_response
      = [("m1", [Decision.reject "Malformed interrupt"])]
    ∧ (run_agent_loop
        [.interrupts false [⟨"m1", .malformed⟩, ⟨"v1", .valid ⟨[⟨"create_trading_signal"⟩]⟩⟩]]
        (fun _ _ => []) false).batches
      = [[("v1", [Decision.approve])]]
    ∧ (run_agent_loop
        [.interrupts false [⟨"m1", .malformed⟩, ⟨"v1", .valid ⟨[⟨"create_trading_signal"⟩]⟩⟩]]
        (fun _ _ => []) false).status = .completed := by
  refine ⟨by decide, by decide, by decide⟩

/-- Counterexample for C3: a run whose first pass streams a tool-call
fragment and a valid interrupt; after the resume cycle (whose own pass
contains no tool-call chunk at all) the final state still holds the
first pass's buffer entry, so the fragment table is not reset between
cycles. -/
theorem tool_call_buffers_survive_resume_cycle :
    (run_agent_loop
        [.message false false [.toolCall (some "http_request") (some 0) none],
         .interrupts false [⟨"v1", .valid ⟨[⟨"http_request"⟩]⟩⟩]]
        (fun _ _ => []) false).state.tool_call_buffers
      = [(BufferKey.index 0, ⟨some "http_request", none⟩)] := by
  decide

lemma process_hitl_foldl (l : List (String × HITLRequest)) (s : StreamState) :
    l.foldl (fun st p => { st with hitl_response := dictInsert st.hitl_response p.1 (p.2.action_requests.map fun _ => Decision.approve) }) s
    = { s with hitl_response := l.foldl (fun acc p => dictInsert acc p.1 (p.2.action_requests.map fun _ => Decision.approve)) s.hitl_response } := by
  induction l generalizing s with
  | nil => simp
  | cons p rest ih =>
    simp only [List.foldl_cons]
    rw [ih]

/-- C3 as amended: the between-cycles step of the loop clears the
interrupt flag, the pending table and the decision batch (rebuilding the
latter from the pending requests alone), while the accumulated output
text and also the table of in-flight tool-call fragments are carried
over unchanged. -/
theorem resume_cycle_reset_scope (st : StreamState) :
    (resume_prepare st).interrupt_occurred = false
    ∧ (resume_prepare st).pending_interrupts = []
    ∧ (resume_prepare st).hitl_response = buildApprovals st.pending_interrupts
    ∧ (resume_prepare st).full_response = st.full_response
    ∧ (resume_prepare st).tool_call_buffers = st.tool_call_buffers
    ∧ (resume_prepare st).quiet = st.quiet := by
  unfold resume_prepare process_hitl_interrupts buildApprovals
  rw [process_hitl_foldl]
  exact ⟨rfl, rfl, rfl, rfl, rfl, rfl⟩

end Embient
